import Mathlib

/-!
Verification of the vanilla-form-validator library (TypeScript sources
`src/vanilla-form-validator.ts`, `src/utils.ts`, `src/isHelper.ts`) against its
natural-language specification.

The development is a shallow embedding:

* JavaScript runtime values handled by the settings merger (`deepMerge` in
  `utils.ts`) are modelled by the inductive `JSVal`.  Values are trees; the
  `WeakMap`-based cycle protection of the source is unreachable on tree-shaped
  inputs (each object node is visited exactly once), so it has no counterpart
  here.  Deep cloning is structural identity on immutable values but is kept
  as a recursive function mirroring the source.
* The rule evaluator (`validateField` and its helpers) is embedded over a
  `Field`/`Form` record model of the DOM objects it reads.  Operations the
  evaluator delegates to the browser — compiling an arbitrary `pattern`
  attribute to a RegExp, and `Date.parse` — are parameters gathered in `Env`.
  The concrete regular expressions of `isHelper.ts` (email, digits) are
  translated to executable recognisers; the url/phone regexes, which no claim
  exercises beyond their existence, are routed through the same RegExp
  parameter applied to the literal pattern text of the source.
* JavaScript truthiness is modelled explicitly where the source relies on it:
  an attribute string is truthy iff present and non-empty, a number is truthy
  iff non-zero (this is load-bearing for `Date.parse` results and for rule
  parameters), `null`/`undefined` are falsy, and an array is truthy even when
  empty.
-/

namespace FormValidator

/-! ## JavaScript values and the settings merger (`utils.ts`) -/

/-- A JavaScript runtime value, as seen by `deepMerge`.  Functions are opaque
and carry an identifier only; arrays are objects flagged `isArr` whose keys are
stringified indices, matching `Object.keys` on arrays. -/
inductive JSVal where
  | vundefined
  | vnull
  | vbool (b : Bool)
  | vnum (n : Int)
  | vstr (s : String)
  | vfun (id : Nat)
  | vobj (isArr : Bool) (props : List (String × JSVal))

/-- First match wins, as for JavaScript property lookup on the ordered
key list of an object literal. -/
def jsLookup : List (String × JSVal) → String → Option JSVal
  | [], _ => none
  | (k2, v) :: rest, k => if k2 = k then some v else jsLookup rest k

/-- Helper for `dedupKeys`: drop keys already seen, keeping first occurrences. -/
def dedupAux : List String → List String → List String
  | _, [] => []
  | seen, k :: rest =>
    if seen.contains k then dedupAux seen rest else k :: dedupAux (k :: seen) rest

/-- Key order of `new Set([...Object.keys(a), ...Object.keys(b)])`: insertion
order with duplicates dropped. -/
def dedupKeys (l : List String) : List String := dedupAux [] l

mutual
/-- The `clone` helper of `deepMerge`: primitives and functions are returned
as-is, arrays and objects are copied key by key.  The `Date`/`Map`/`Set`
branches of the source have no counterpart in `JSVal` and the
`typeof value === "function"` branch is unreachable (functions already fail the
`typeof value !== "object"` test). -/
def clone : JSVal → JSVal
  | .vobj arr ps => .vobj arr (cloneProps ps)
  | v => v

def cloneProps : List (String × JSVal) → List (String × JSVal)
  | [] => []
  | (k, v) :: rest => (k, clone v) :: cloneProps rest
end

mutual
/-- The inner `merge` of `deepMerge` (`utils.ts`): a primitive, `null`,
`undefined` or function override replaces the base; an object/array override is
merged key by key over the keys of both sides in first-occurrence order, where
a key whose override value is `undefined` keeps a clone of the base value.
`mergeProps` precomputes the merge of every overridden key (structural
recursion over the override's property list); the result list is then
assembled in the source's key order, which yields exactly the value computed
key-by-key by the source loop. -/
def merge : JSVal → JSVal → JSVal
  | a, .vobj bArr bPs =>
    match a with
    | .vobj _ aPs =>
      let keys := dedupKeys (aPs.map Prod.fst ++ bPs.map Prod.fst)
      let overridden := mergeProps aPs bPs
      .vobj bArr (keys.map (fun k =>
        match jsLookup overridden k with
        | some v => (k, v)
        | none => (k, clone ((jsLookup aPs k).getD .vundefined))))
    | _ => clone (.vobj bArr bPs)
  | _, b => b

def mergeProps (aPs : List (String × JSVal)) : List (String × JSVal) → List (String × JSVal)
  | [] => []
  | (k, vB) :: rest =>
    (k, match vB with
        | .vundefined => clone ((jsLookup aPs k).getD .vundefined)
        | _ => merge ((jsLookup aPs k).getD .vundefined) vB) :: mergeProps aPs rest
end

/-- Exported entry point of `utils.ts`. -/
def deepMerge (obj1 obj2 : JSVal) : JSVal := merge obj1 obj2

mutual
/-- Well-formedness of a `JSVal` as the image of a JavaScript object: property
keys are distinct at every level (a JavaScript object literal cannot carry the
same key twice). -/
def wfJS : JSVal → Bool
  | .vobj _ ps => decide (ps.map Prod.fst).Nodup && wfProps ps
  | _ => true

def wfProps : List (String × JSVal) → Bool
  | [] => true
  | (_, v) :: rest => wfJS v && wfProps rest
end

/-- Property read `x.k`: throws a `TypeError` on `undefined`/`null`, yields
`undefined` for a missing key, and `undefined` on (autoboxed) primitives. -/
def getProp : JSVal → String → Except String JSVal
  | .vundefined, _ => .error "TypeError: cannot read properties of undefined"
  | .vnull, _ => .error "TypeError: cannot read properties of null"
  | .vobj _ ps, k => .ok ((jsLookup ps k).getD .vundefined)
  | _, _ => .ok .vundefined

/-- The initializer of the `messages` instance field of `FormValidator`, as a
JavaScript object (source lines 10-27). -/
def defaultMessagesJS : JSVal :=
  .vobj false
    [("required", .vstr "This field is required."),
     ("remote", .vstr "Please fix this field."),
     ("email", .vstr "Please enter a valid email address."),
     ("url", .vstr "Please enter a valid URL."),
     ("date", .vstr "Please enter a valid date."),
     ("number", .vstr "Please enter a valid number."),
     ("phone", .vstr "Please enter a valid phone."),
     ("file", .vstr "Please select a file."),
     ("equalTo", .vstr "Please enter the same value again."),
     ("maxlength", .vstr "Please enter no more than {0} characters."),
     ("minlength", .vstr "Please enter at least {0} characters."),
     ("rangelength", .vstr "Please enter a value between {0} and {1} characters long"),
     ("max", .vstr "Please enter a value than {0}."),
     ("min", .vstr "Please enter a value at least {0}."),
     ("range", .vstr "Please enter a value between {0} and {1}"),
     ("regExp", .vstr "Please enter a value matching the requested format.")]

/-- The default-settings literal passed as first argument to `deepMerge` in the
constructor (source lines 43-54); its `messages` entry references the default
catalog. -/
def defaultSettingsJS : JSVal :=
  .vobj false
    [("ignore", .vnull),
     ("fields", .vnull),
     ("autoValidate", .vbool true),
     ("errorPlacement", .vnull),
     ("errorElement", .vstr "p"),
     ("errorClass", .vstr "error"),
     ("errorFieldClass", .vnull),
     ("validFormClass", .vstr "was-validated"),
     ("submitHandler", .vnull),
     ("messages", defaultMessagesJS)]

/-- Settings/messages computation of the constructor (source lines 42-56):
`this.settings = deepMerge(defaults, settings)` followed by
`this.messages = deepMerge(this.settings.messages, this.messages)`, where
`this.messages` still holds the default catalog.  Reading `.messages` off a
non-object merge result throws, which the `Except` captures.  Returns the pair
`(this.settings, this.messages)`. -/
def constructorCompute (settings : JSVal) : Except String (JSVal × JSVal) :=
  let s := deepMerge defaultSettingsJS settings
  match getProp s "messages" with
  | .error e => .error e
  | .ok settingsMessages => .ok (s, deepMerge settingsMessages defaultMessagesJS)

/-- The merge performed by `loadMessages` once the fetch resolves (source line
73): `this.messages = deepMerge(data.messages, this.messages)`. -/
def loadMessagesMerge (dataMessages currentMessages : JSVal) : JSVal :=
  deepMerge dataMessages currentMessages

/-- The message key `k` of the catalog produced by the constructor for the
given user settings, or `none` when construction throws. -/
def effectiveCatalogMessage (settings : JSVal) (key : String) : Option JSVal :=
  match constructorCompute settings with
  | .ok (_, m) =>
    match getProp m key with
    | .ok v => some v
    | .error _ => none
  | .error _ => none

/-- The message key `k` of the merged `settings.messages` object produced by
the first constructor merge, or `none` when construction throws. -/
def effectiveSettingsMessage (settings : JSVal) (key : String) : Option JSVal :=
  match constructorCompute settings with
  | .ok (s, _) =>
    match getProp s "messages" with
    | .ok msgs =>
      match getProp msgs key with
      | .ok v => some v
      | .error _ => none
    | .error _ => none
  | .error _ => none

/-! ## The DOM model -/

/-- A tracked input-like control: the properties and attributes `validateField`
reads.  `attrs` backs `getAttribute`/`hasAttribute`; `id`, `name`, `type`,
`value` and `pattern` mirror the DOM properties of the same names;
`dataErrorMessage` is `field.dataset.errorMessage` with `""` for absent (the
source only tests its truthiness); `files` is `none` for a `null` file list;
`selectedOptionCount` is the number of selected `option` children of a
`select`.  `nodeName` is stored as the source reads it (compared lowercased). -/
structure Field where
  id : String := ""
  name : String := ""
  type : String := "text"
  value : String := ""
  pattern : String := ""
  attrs : List (String × String) := []
  dataErrorMessage : String := ""
  files : Option Nat := none
  checked : Bool := false
  nodeName : String := "input"
  selectedOptionCount : Nat := 0

def Field.getAttribute (f : Field) (name : String) : Option String :=
  f.attrs.lookup name

def Field.hasAttribute (f : Field) (name : String) : Bool :=
  (f.getAttribute name).isSome

/-- The bound form: its element list backs the name-based queries
(`querySelectorAll` over `input[name=...]`/`[name=...]`), and `query` models
`querySelector` for the free-form selectors of `equalTo` rules (`none` when the
selector matches nothing). -/
structure Form where
  elements : List Field := []
  query : String → Option Field := fun _ => none

/-- External collaborators the evaluator calls synchronously: compiling and
testing an arbitrary regular expression (`new RegExp(pattern).test(value)`),
and `Date.parse` (`none` models `NaN`, `some n` a millisecond timestamp). -/
structure Env where
  regexpTest : String → String → Bool
  dateParse : String → Option Int

/-! ## The predicate library (`isHelper.ts`) -/

/-- The `notEmpty` predicate. -/
def notEmpty (value : String) : Bool := value.length > 0

/-- The `validRegExp` predicate: the field's `pattern` attribute compiled as a
regular expression and tested against the value. -/
def validRegExp (env : Env) (pattern value : String) : Bool :=
  env.regexpTest pattern value

/-- Splitting a character list at every occurrence of a separator character
(the behaviour of `String.prototype.split` with a one-character separator). -/
def splitOnCharAux (sep : Char) : List Char → List Char → List (List Char)
  | acc, [] => [acc.reverse]
  | acc, c :: rest =>
    if c = sep then acc.reverse :: splitOnCharAux sep [] rest
    else splitOnCharAux sep (c :: acc) rest

def splitOnChar (sep : Char) (cs : List Char) : List (List Char) :=
  splitOnCharAux sep [] cs

/-- First occurrence of a pattern inside a character list: the characters
before it and the characters after it, or `none` when the pattern does not
occur. -/
def splitFirst (pat : List Char) (cs : List Char) : Option (List Char × List Char) :=
  if pat.isPrefixOf cs then some ([], cs.drop pat.length)
  else
    match cs with
    | [] => none
    | c :: rest =>
      match splitFirst pat rest with
      | some (pre, post) => some (c :: pre, post)
      | none => none

/-- ASCII lowercasing, as `toLowerCase` behaves on the tag and type names the
source lowercases. -/
def toLowerStr (s : String) : String := String.mk (s.toList.map Char.toLower)

/-- Local-part character class of the email regex:
`[a-zA-Z0-9.!#$%&'*+\/=?^_`{|}~-]`, by code point. -/
def isLocalChar (c : Char) : Bool :=
  c.isAlphanum ||
    [33, 35, 36, 37, 38, 39, 42, 43, 45, 46, 47, 61, 63, 94, 95, 96, 123, 124, 125, 126].contains c.toNat

/-- One domain label of the email regex,
`[a-zA-Z0-9](?:[a-zA-Z0-9-]{0,61}[a-zA-Z0-9])?`: one to sixty-three
characters, alphanumeric at both ends, alphanumeric or hyphen in between. -/
def validDomainLabel (cs : List Char) : Bool :=
  match cs with
  | [] => false
  | c :: rest =>
    c.isAlphanum && cs.length ≤ 63 &&
      (rest.all fun c2 => c2.isAlphanum || c2 = '-') &&
      (rest.getLast?.getD c).isAlphanum

/-- The `validEmail` regex
`^[local]+@label(?:\.label)*$` as a recogniser: since `@` belongs to neither
character class, a match decomposes uniquely at the `@` signs and at the dots
of the domain, so the regex accepts exactly the strings with one `@`, a
non-empty local part over the local character class, and every dot-separated
domain segment a valid label.  Note the dot group is starred: zero additional
labels, hence a dotless domain, is accepted. -/
def validEmail (value : String) : Bool :=
  match splitOnChar '@' value.toList with
  | [localPart, domain] =>
    localPart.length > 0 && localPart.all isLocalChar &&
      (splitOnChar '.' domain).all validDomainLabel
  | _ => false

/-- Literal source text of the `validUrl` regex (tested case-insensitively). -/
def urlRegExpSource : String :=
  "^(?:https?|ftp):\\/\\/(?:\\S+(?::\\S*)?@)?(?:(?!(?:10|127)(?:\\.\\d\x7b1,3\x7d)\x7b3\x7d)(?!(?:169\\.254|192\\.168)(?:\\.\\d\x7b1,3\x7d)\x7b2\x7d)(?!172\\.(?:1[6-9]|2\\d|3[0-1])(?:\\.\\d\x7b1,3\x7d)\x7b2\x7d)(?:[1-9]\\d?|1\\d\\d|2[01]\\d|22[0-3])(?:\\.(?:1?\\d\x7b1,2\x7d|2[0-4]\\d|25[0-5]))\x7b2\x7d\\.(?:[1-9]\\d?|1\\d\\d|2[0-4]\\d|25[0-4])|(?:[a-z\\u00a1-\\uffff0-9]-*)*[a-z\\u00a1-\\uffff0-9]+(?:\\.(?:[a-z\\u00a1-\\uffff0-9]-*)*[a-z\\u00a1-\\uffff0-9]+)*\\.[a-z\\u00a1-\\uffff]\x7b2,\x7d\\.?)(?::\\d\x7b2,5\x7d)?(?:[\\/?#]\\S*)?$"

/-- The `validUrl` predicate; no claim exercises its pattern beyond identity,
so the regex stays a parameter application on the literal source text. -/
def validUrl (env : Env) (value : String) : Bool :=
  env.regexpTest urlRegExpSource value

/-- Literal source text of the `validPhone` regex. -/
def phoneRegExpSource : String :=
  "^\\s\x7b0,2\x7d[\\+]?[\\s0-9]\x7b6,20\x7d\\s\x7b0,2\x7d$"

/-- The `validPhone` predicate, a parameter application like `validUrl`. -/
def validPhone (env : Env) (value : String) : Bool :=
  env.regexpTest phoneRegExpSource value

/-- The `validDigits` regex `^\d+$`: non-empty and ASCII digits only. -/
def validDigits (value : String) : Bool :=
  value.length > 0 && value.toList.all (fun c => c.isDigit)

/-- The `validDate` predicate (`isHelper.ts` lines 683-708).  The source tests
the parse result with `if (value)`: JavaScript truthiness makes this false both
for `NaN` (unparseable) and for the timestamp `0`, so a value parsing to the
epoch instant is reported invalid.  A `min`/`max` attribute bound is applied
only when present and non-empty; an unparseable bound yields `NaN`, against
which both comparisons are false, so it never rejects. -/
def validDate (env : Env) (field : Field) : Bool :=
  match env.dateParse field.value with
  | none => false
  | some value =>
    if value = 0 then false
    else
      (match field.getAttribute "min" with
       | some attrMin =>
         if attrMin ≠ "" then
           match env.dateParse attrMin with
           | some minValue => !(value < minValue)
           | none => true
         else true
       | none => true) &&
      (match field.getAttribute "max" with
       | some attrMax =>
         if attrMax ≠ "" then
           match env.dateParse attrMax with
           | some maxValue => !(value > maxValue)
           | none => true
         else true
       | none => true)

/-! ## Declared rules and configuration (`types.ts`) -/

/-- A rule's `method`: either a name (`equalTo`, `minlength`, ...) or a custom
predicate invoked with `(value, field)`. -/
inductive RuleMethod where
  | methodName (s : String)
  | fn (p : String → Field → Bool)

/-- The `FormRuleValidation` interface. -/
structure FormRuleValidation where
  method : Option RuleMethod := none
  field : Option String := none
  min : Option Int := none
  max : Option Int := none
  errorMessage : Option String := none

/-- The `FormField` interface: a declared-rules entry addressed by name. -/
structure FormField where
  name : Option String := none
  rules : Option (List FormRuleValidation) := none

/-- The 16-key message catalog (`FormMessages`). -/
structure FormMessages where
  required : String
  remote : String
  email : String
  url : String
  date : String
  number : String
  phone : String
  file : String
  equalTo : String
  maxlength : String
  minlength : String
  rangelength : String
  max : String
  min : String
  range : String
  regExp : String

/-- The default catalog (the `messages` field initializer). -/
def defaultMessages : FormMessages where
  required := "This field is required."
  remote := "Please fix this field."
  email := "Please enter a valid email address."
  url := "Please enter a valid URL."
  date := "Please enter a valid date."
  number := "Please enter a valid number."
  phone := "Please enter a valid phone."
  file := "Please select a file."
  equalTo := "Please enter the same value again."
  maxlength := "Please enter no more than {0} characters."
  minlength := "Please enter at least {0} characters."
  rangelength := "Please enter a value between {0} and {1} characters long"
  max := "Please enter a value than {0}."
  min := "Please enter a value at least {0}."
  range := "Please enter a value between {0} and {1}"
  regExp := "Please enter a value matching the requested format."

/-! ## Shared JavaScript-semantics helpers -/

/-- Truthiness of a `getAttribute` result: present and non-empty. -/
def truthyAttr : Option String → Bool
  | some s => s ≠ ""
  | none => false

/-- The pattern `x ? x : dflt` on a nullable string. -/
def jsOrStr : Option String → String → String
  | some s, dflt => if s ≠ "" then s else dflt
  | none, dflt => dflt

/-- `String.prototype.replace` with a string pattern replaces the first
occurrence only. -/
def replaceFirst (s pat rep : String) : String :=
  match splitFirst pat.toList s.toList with
  | some (pre, post) => String.mk (pre ++ rep.toList ++ post)
  | none => s

/-- Leading decimal-digit run of a character list. -/
def leadingDigits : List Char → List Char
  | [] => []
  | c :: rest => if c.isDigit then c :: leadingDigits rest else []

/-- JavaScript `parseInt` in base 10 (`none` models `NaN`): skip leading
whitespace, optional sign, then the leading digit run.  Hexadecimal `0x`
prefixes are not modelled; every call site feeds attribute strings or field
values where they do not occur. -/
def jsParseInt (s : String) : Option Int :=
  let cs := s.toList.dropWhile (fun c => c.isWhitespace)
  let signed : Int × List Char :=
    match cs with
    | c :: rest => if c = '-' then (-1, rest) else if c = '+' then (1, rest) else (1, cs)
    | [] => (1, [])
  let ds := leadingDigits signed.2
  if ds.isEmpty then none
  else some (signed.1 * (ds.foldl (fun acc c => acc * 10 + ((c.toNat : Int) - 48)) 0))

/-! ## Length measurement and the length rule methods -/

/-- Substring test, used for the unanchored `/radio|checkbox/i` match. -/
def strContainsSub (s pat : String) : Bool := (splitFirst pat.toList s.toList).isSome

/-- The `checkable` helper: `/radio|checkbox/i.test(element.type)`. -/
def checkable (element : Field) : Bool :=
  strContainsSub (toLowerStr element.type) "radio" ||
    strContainsSub (toLowerStr element.type) "checkbox"

/-- The `findByName` helper: all form elements whose `name` attribute equals
the given name (the CSS-meta escaping of the source only makes the literal
selector safe and does not change which names match). -/
def findByName (form : Form) (name : String) : List Field :=
  form.elements.filter (fun f => f.name == name)

/-- The `getLength` helper.  `none` models the `NaN` a `parseInt` on a
non-numeric value of a `type="number"` field produces; every other branch is a
count.  The value argument is always a string here (the `Array.isArray` branch
of the callers concerns direct API calls with arrays, which the claims never
exercise). -/
def getLength (form : Form) (value : String) (element : Field) : Option Int :=
  if toLowerStr element.nodeName = "select" then
    some (element.selectedOptionCount : Int)
  else if toLowerStr element.nodeName = "input" then
    if checkable element then
      some (((findByName form element.name).filter (fun f => f.checked)).length : Int)
    else if element.type = "number" then
      jsParseInt value
    else if element.type = "file" then
      some ((element.files.getD 0 : Nat) : Int)
    else
      some (value.length : Int)
  else
    some (value.length : Int)

/-- The `minlength` method: length at least `param`; a `NaN` length fails. -/
def minlength (form : Form) (value : String) (element : Field) (param : Int) : Bool :=
  match getLength form value element with
  | none => false
  | some length => length ≥ param

/-- The `maxlength` method: length at most `param`; a `NaN` length fails. -/
def maxlength (form : Form) (value : String) (element : Field) (param : Int) : Bool :=
  match getLength form value element with
  | none => false
  | some length => length ≤ param

/-- The `rangelength` method: length within `[param[0], param[1]]`; call sites
always pass a two-element array. -/
def rangelength (form : Form) (value : String) (element : Field) (param : List Int) : Bool :=
  match getLength form value element with
  | none => false
  | some length =>
    match param with
    | [p0, p1] => length ≥ p0 && length ≤ p1
    | _ => false

/-- The `validateCheckboxRadio` helper: at least one `input` with the given
name is checked (the error-class removal it also performs is display-only). -/
def validateCheckboxRadio (form : Form) (name : String) : Bool :=
  (form.elements.filter (fun f => toLowerStr f.nodeName == "input" && f.name == name)).any
    (fun f => f.checked)

/-! ## The validation pipeline (`validateField`) -/

/-- Effective minimum source: the `minlength` attribute if truthy, else the
`min` attribute (`minlength = attr('minlength') ? attr('minlength') :
attr('min')`). -/
def effMinAttr (field : Field) : Option String :=
  if truthyAttr (field.getAttribute "minlength") then field.getAttribute "minlength"
  else field.getAttribute "min"

/-- Effective maximum source, `maxlength` attribute falling back to `max`. -/
def effMaxAttr (field : Field) : Option String :=
  if truthyAttr (field.getAttribute "maxlength") then field.getAttribute "maxlength"
  else field.getAttribute "max"

/-- Minimum-length check of the attribute pipeline (source lines 194-203).
Runs when the effective minimum is truthy and all digits; on failure without a
custom message, picks the `min` catalog variant when the field carries a truthy
`min` attribute and the `minlength` variant otherwise. -/
def minlengthStep (form : Form) (messages : FormMessages) (field : Field)
    (fieldValue customErrorMessage : String) (st : Bool × String) : Bool × String :=
  match effMinAttr field with
  | some m =>
    if validDigits m then
      let ok := minlength form fieldValue field ((jsParseInt m).getD 0)
      (ok,
        if !ok && customErrorMessage = "" then
          if truthyAttr (field.getAttribute "min") then replaceFirst messages.min "{0}" m
          else replaceFirst messages.minlength "{0}" m
        else st.2)
    else st
  | none => st

/-- Maximum-length check (source lines 204-213); note the source reassigns
`isValid` unconditionally here, discarding the outcome of the minimum check. -/
def maxlengthStep (form : Form) (messages : FormMessages) (field : Field)
    (fieldValue customErrorMessage : String) (st : Bool × String) : Bool × String :=
  match effMaxAttr field with
  | some m =>
    if validDigits m then
      let ok := maxlength form fieldValue field ((jsParseInt m).getD 0)
      (ok,
        if !ok && customErrorMessage = "" then
          if truthyAttr (field.getAttribute "max") then replaceFirst messages.max "{0}" m
          else replaceFirst messages.maxlength "{0}" m
        else st.2)
    else st
  | none => st

/-- Combined range check (source lines 214-226), run when both bounds are
truthy digit strings; again reassigns `isValid` and, on failure, the message. -/
def rangelengthStep (form : Form) (messages : FormMessages) (field : Field)
    (fieldValue customErrorMessage : String) (st : Bool × String) : Bool × String :=
  match effMinAttr field, effMaxAttr field with
  | some m, some mx =>
    if validDigits m && validDigits mx then
      let ok := rangelength form fieldValue field [(jsParseInt m).getD 0, (jsParseInt mx).getD 0]
      (ok,
        if !ok && customErrorMessage = "" then
          if truthyAttr (field.getAttribute "max") && truthyAttr (field.getAttribute "min") then
            replaceFirst (replaceFirst messages.range "{0}" m) "{1}" mx
          else
            replaceFirst (replaceFirst messages.rangelength "{0}" m) "{1}" mx
        else st.2)
    else st
  | _, _ => st

/-- The whole `default:` branch of the type switch. -/
def lengthChecks (form : Form) (messages : FormMessages) (field : Field)
    (fieldValue customErrorMessage : String) (st : Bool × String) : Bool × String :=
  rangelengthStep form messages field fieldValue customErrorMessage
    (maxlengthStep form messages field fieldValue customErrorMessage
      (minlengthStep form messages field fieldValue customErrorMessage st))

/-- The type-specific structural check (the switch at source lines 156-227);
the `number` case is commented out in the source, so `number` falls into the
default length-check branch. -/
def typeSwitchStep (env : Env) (form : Form) (messages : FormMessages) (field : Field)
    (fieldValue customErrorMessage : String) (st : Bool × String) : Bool × String :=
  if field.type = "email" then
    let ok := validEmail fieldValue
    (ok, if !ok && customErrorMessage = "" then messages.email else st.2)
  else if field.type = "tel" then
    let ok := validPhone env fieldValue
    (ok, if !ok && customErrorMessage = "" then messages.phone else st.2)
  else if field.type = "url" then
    let ok := validUrl env fieldValue
    (ok, if !ok && customErrorMessage = "" then messages.url else st.2)
  else if field.type = "file" then
    let ok : Bool := field.files.getD 0 > 0
    (ok, if !ok && customErrorMessage = "" then messages.file else st.2)
  else if field.type = "date" then
    let ok := validDate env field
    (ok, if !ok && customErrorMessage = "" then messages.date else st.2)
  else
    lengthChecks form messages field fieldValue customErrorMessage st

/-- The pattern check (source lines 228-233): applies only while still valid,
with a non-empty value and a non-empty `pattern` attribute. -/
def patternStep (env : Env) (messages : FormMessages) (field : Field)
    (fieldValue customErrorMessage : String) (st : Bool × String) : Bool × String :=
  if st.1 && fieldValue ≠ "" && field.pattern ≠ "" then
    let ok := validRegExp env field.pattern fieldValue
    (ok, if !ok && customErrorMessage = "" then messages.regExp else st.2)
  else st

/-- One declared rule (the body of the inner `forEach` at source lines
238-301).  A custom predicate is invoked with `(value, field)`; `equalTo`
resolves its selector inside the bound form and is skipped entirely — state
untouched — when the selector is falsy or matches nothing; the parametric
length rules run only when their numeric parameter is truthy (non-zero), and
pick the `min`/`max` message variants by whether the field itself carries the
corresponding truthy attribute. -/
def applyRule (form : Form) (messages : FormMessages) (field : Field)
    (fieldValue customErrorMessage : String) (rule : FormRuleValidation)
    (st : Bool × String) : Bool × String :=
  match rule.method with
  | some (RuleMethod.fn p) =>
    let ok := p fieldValue field
    (ok, if !ok && customErrorMessage = "" then jsOrStr rule.errorMessage messages.remote else st.2)
  | some (RuleMethod.methodName m) =>
    if m = "equalTo" then
      match rule.field with
      | some sel =>
        if sel ≠ "" then
          match form.query sel with
          | some equalToField =>
            let ok : Bool := fieldValue == equalToField.value
            (ok,
              if !ok && customErrorMessage = "" then jsOrStr rule.errorMessage messages.equalTo
              else st.2)
          | none => st
        else st
      | none => st
    else if m = "minlength" then
      match rule.min with
      | some mn =>
        if mn ≠ 0 then
          let ok := minlength form fieldValue field mn
          (ok,
            if !ok && customErrorMessage = "" then
              replaceFirst
                (if truthyAttr (field.getAttribute "min") then jsOrStr rule.errorMessage messages.min
                 else jsOrStr rule.errorMessage messages.minlength) "{0}" (toString mn)
            else st.2)
        else st
      | none => st
    else if m = "maxlength" then
      match rule.max with
      | some mx =>
        if mx ≠ 0 then
          let ok := maxlength form fieldValue field mx
          (ok,
            if !ok && customErrorMessage = "" then
              replaceFirst
                (if truthyAttr (field.getAttribute "max") then jsOrStr rule.errorMessage messages.max
                 else jsOrStr rule.errorMessage messages.maxlength) "{0}" (toString mx)
            else st.2)
        else st
      | none => st
    else if m = "rangelength" then
      match rule.min, rule.max with
      | some mn, some mx =>
        if mn ≠ 0 && mx ≠ 0 then
          let ok := rangelength form fieldValue field [mn, mx]
          (ok,
            if !ok && customErrorMessage = "" then
              replaceFirst
                (replaceFirst
                  (if truthyAttr (field.getAttribute "max") && truthyAttr (field.getAttribute "min")
                   then jsOrStr rule.errorMessage messages.range
                   else jsOrStr rule.errorMessage messages.rangelength) "{0}" (toString mn))
                "{1}" (toString mx)
            else st.2)
        else st
      | _, _ => st
    else st
  | none => st

/-- A field-setting's rule list, folded with the per-rule `if (isValid)` guard:
once invalid, the remaining rules of the list are scanned but skipped. -/
def applyRules (form : Form) (messages : FormMessages) (field : Field)
    (fieldValue customErrorMessage : String) (rules : List FormRuleValidation)
    (st : Bool × String) : Bool × String :=
  rules.foldl
    (fun s rule =>
      if s.1 then applyRule form messages field fieldValue customErrorMessage rule s else s)
    st

/-- The declared-rule block (source lines 234-306): entered only while valid;
every configured field entry whose name equals this field's name and whose
rule list is non-null contributes its rules in order. -/
def rulesStep (form : Form) (settingsFields : Option (List FormField))
    (messages : FormMessages) (field : Field) (fieldValue customErrorMessage : String)
    (st : Bool × String) : Bool × String :=
  if st.1 then
    match settingsFields with
    | some fsList =>
      fsList.foldl
        (fun s fs =>
          if fs.name == some field.name && fs.rules.isSome then
            applyRules form messages field fieldValue customErrorMessage (fs.rules.getD []) s
          else s)
        st
    | none => st
  else st

/-- The `validateField` verdict `(isValid, errorMessage)` (source lines
124-343).  The tail of the source function (lines 308-341) only renders
`errorMessage` into the error DOM node and toggles classes before returning
`isValid`, so the verdict pair is the complete observable outcome.
`settingsFields` is `this.settings.fields` (`none` for `null`). -/
def validateField (env : Env) (form : Form) (settingsFields : Option (List FormField))
    (messages : FormMessages) (field : Field) : Bool × String :=
  let fieldValue := field.value
  let customErrorMessage := field.dataErrorMessage
  let errorMessage := if customErrorMessage ≠ "" then customErrorMessage else ""
  let isValid := true
  let afterRequired : Bool × String :=
    if field.hasAttribute "required" then
      let ok :=
        if field.type = "checkbox" || field.type = "radio" then
          validateCheckboxRadio form field.name
        else notEmpty fieldValue
      (ok, if !ok && customErrorMessage = "" then messages.required else errorMessage)
    else (isValid, errorMessage)
  if afterRequired.1 && fieldValue ≠ "" then
    rulesStep form settingsFields messages field fieldValue customErrorMessage
      (patternStep env messages field fieldValue customErrorMessage
        (typeSwitchStep env form messages field fieldValue customErrorMessage afterRequired))
  else afterRequired

/-- The `validateForm` aggregate (source lines 456-467): `forEach` over the
tracked fields, demoting the accumulator on every invalid field. -/
def validateForm (env : Env) (form : Form) (fields : Option (List Field))
    (settingsFields : Option (List FormField)) (messages : FormMessages) : Bool :=
  match fields with
  | none => true
  | some fs =>
    fs.foldl
      (fun isValid field =>
        let isValidField := (validateField env form settingsFields messages field).1
        if !isValidField then false else isValid)
      true

end FormValidator

namespace FormValidator

/-! ## Test fixtures shared by the concrete evaluations -/

/-- An environment whose RegExp collaborator rejects everything and whose date
parser parses nothing; the fixtures below never reach either. -/
def env0 : Env where
  regexpTest := fun _ _ => false
  dateParse := fun _ => none

/-- An empty bound form: no elements, every selector unresolved. -/
def form0 : Form where
  elements := []
  query := fun _ => none

end FormValidator

namespace FormValidator

/-- A user settings object overriding one canonical message. -/
def userSettingsC3 : JSVal :=
  .vobj false [("messages", .vobj false [("required", .vstr "CUSTOM REQUIRED")])]

/-- A date field whose value is the epoch instant, together with an
environment whose date parser returns the timestamp `0` for it — the value
`Date.parse` really yields on `"1970-01-01T00:00:00Z"`. -/
def fieldC4 : Field := { value := "1970-01-01T00:00:00Z" }

def env4 : Env where
  regexpTest := fun _ _ => false
  dateParse := fun s => if s = "1970-01-01T00:00:00Z" then some 0 else none

/-- A text field with `minlength="5"` and `maxlength="10"` and the too-short
value `"ab"`. -/
def fieldC1 : Field :=
  { type := "text", value := "ab", attrs := [("minlength", "5"), ("maxlength", "10")] }

/-- A text field carrying both a `minlength="5"` and a `min="3"` attribute,
with the too-short value `"ab"`: the effective minimum is sourced from
`minlength`, yet a `min` attribute is present. -/
def fieldC6 : Field :=
  { type := "text", value := "ab", attrs := [("minlength", "5"), ("min", "3")] }

end FormValidator

namespace FormValidator

/-! ## Verdict predicates for the pipeline characterization -/

/-- Whether the attribute-derived minimum check runs at all: the effective
minimum source is truthy and all digits. -/
def minSourceApplicable (field : Field) : Bool :=
  match effMinAttr field with
  | some m => validDigits m
  | none => false

/-- Whether the attribute-derived maximum check runs at all. -/
def maxSourceApplicable (field : Field) : Bool :=
  match effMaxAttr field with
  | some m => validDigits m
  | none => false

/-- The evaluator dispatches to the length/range branch exactly for types
outside the five specifically handled ones. -/
def usesLengthChecks (t : String) : Bool :=
  !(t == "email" || t == "tel" || t == "url" || t == "file" || t == "date")

/-- The verdict the length/range step block leaves when entered valid: each
applicable bound check must pass (when both are applicable this coincides with
the final combined range check). -/
def lengthOk (form : Form) (v : String) (field : Field) : Bool :=
  (match effMinAttr field with
   | some m => if validDigits m then minlength form v field ((jsParseInt m).getD 0) else true
   | none => true) &&
  (match effMaxAttr field with
   | some m => if validDigits m then maxlength form v field ((jsParseInt m).getD 0) else true
   | none => true)

/-- The verdict of the type-specific structural check when entered valid. -/
def typeOk (env : Env) (form : Form) (v : String) (field : Field) : Bool :=
  if field.type = "email" then validEmail v
  else if field.type = "tel" then validPhone env v
  else if field.type = "url" then validUrl env v
  else if field.type = "file" then field.files.getD 0 > 0
  else if field.type = "date" then validDate env field
  else lengthOk form v field

/-- The verdict one declared rule leaves when entered valid: `true` whenever
the rule is inapplicable (missing method, falsy selector or parameter,
unresolvable `equalTo` target), otherwise its check. -/
def rulePass (form : Form) (field : Field) (v : String) (r : FormRuleValidation) : Bool :=
  match r.method with
  | some (RuleMethod.fn p) => p v field
  | some (RuleMethod.methodName m) =>
    if m = "equalTo" then
      match r.field with
      | some sel =>
        if sel ≠ "" then
          match form.query sel with
          | some equalToField => v == equalToField.value
          | none => true
        else true
      | none => true
    else if m = "minlength" then
      match r.min with
      | some mn => if mn ≠ 0 then minlength form v field mn else true
      | none => true
    else if m = "maxlength" then
      match r.max with
      | some mx => if mx ≠ 0 then maxlength form v field mx else true
      | none => true
    else if m = "rangelength" then
      match r.min, r.max with
      | some mn, some mx =>
        if mn ≠ 0 && mx ≠ 0 then rangelength form v field [mn, mx] else true
      | _, _ => true
    else true
  | none => true

/-- All declared rules of every matching configuration entry pass. -/
def rulesOk (form : Form) (settingsFields : Option (List FormField)) (field : Field)
    (v : String) : Bool :=
  match settingsFields with
  | none => true
  | some fsList =>
    fsList.all (fun fs =>
      if fs.name == some field.name && fs.rules.isSome then
        (fs.rules.getD []).all (rulePass form field v)
      else true)

/-- The verdict of the required check. -/
def requiredOk (form : Form) (field : Field) : Bool :=
  if field.hasAttribute "required" then
    if field.type = "checkbox" || field.type = "radio" then validateCheckboxRadio form field.name
    else notEmpty field.value
  else true

/-! ## Further test fixtures -/

/-- A text field with only a `minlength="5"` attribute and value `"ab"`. -/
def fieldW : Field := { type := "text", value := "ab", attrs := [("minlength", "5")] }

/-- A field with an always-failing custom rule attached by name, used to show
the rule is never consulted when the value is empty and the field optional. -/
def fieldC10 : Field := { name := "note", type := "text", value := "" }

/-- A field referenced by an `equalTo` rule whose selector resolves to
nothing. -/
def fieldC8 : Field := { name := "a", type := "text", value := "x" }

/-- A nested well-formed configuration object for the idempotence witness. -/
def configW : JSVal :=
  .vobj false [("a", .vnum 1), ("b", .vobj false [("c", .vstr "x")])]

/-! ## Helper lemmas -/

theorem patternStep_invalid (env : Env) (messages : FormMessages) (field : Field)
    (fieldValue customErrorMessage : String) (st : Bool × String) (h : st.1 = false) :
    patternStep env messages field fieldValue customErrorMessage st = st := by
  unfold patternStep
  simp [h]

theorem rulesStep_invalid (form : Form) (sf : Option (List FormField)) (messages : FormMessages)
    (field : Field) (fieldValue customErrorMessage : String) (st : Bool × String)
    (h : st.1 = false) :
    rulesStep form sf messages field fieldValue customErrorMessage st = st := by
  unfold rulesStep
  simp [h]

theorem applyRule_equalTo_unresolvable (form : Form) (messages : FormMessages) (field : Field)
    (fieldValue customErrorMessage sel : String) (mn mx : Option Int) (em : Option String)
    (st : Bool × String) (h : form.query sel = none) :
    applyRule form messages field fieldValue customErrorMessage
      ⟨some (RuleMethod.methodName "equalTo"), some sel, mn, mx, em⟩ st = st := by
  unfold applyRule
  by_cases hs : sel = "" <;> simp [hs, h]

theorem applyRules_insert_inert (form : Form) (messages : FormMessages) (field : Field)
    (fieldValue customErrorMessage : String) (rule : FormRuleValidation)
    (rs1 rs2 : List FormRuleValidation) (st : Bool × String)
    (h : ∀ s : Bool × String, applyRule form messages field fieldValue customErrorMessage rule s = s) :
    applyRules form messages field fieldValue customErrorMessage (rs1 ++ rule :: rs2) st
      = applyRules form messages field fieldValue customErrorMessage (rs1 ++ rs2) st := by
  unfold applyRules
  rw [List.foldl_append, List.foldl_append, List.foldl_cons]
  congr 1
  cases hs : (List.foldl
      (fun s r =>
        if s.1 then applyRule form messages field fieldValue customErrorMessage r s else s)
      st rs1).1
  · simp [hs]
  · simp [hs, h]

theorem rulesStep_equalTo_unresolvable (form : Form) (messages : FormMessages) (field : Field)
    (fieldValue customErrorMessage sel : String) (mn mx : Option Int) (em : Option String)
    (fsPre fsPost : List FormField) (rs1 rs2 : List FormRuleValidation)
    (st : Bool × String) (h : form.query sel = none) :
    rulesStep form
        (some (fsPre
          ++ ⟨some field.name,
              some (rs1 ++ ⟨some (RuleMethod.methodName "equalTo"), some sel, mn, mx, em⟩ :: rs2)⟩
            :: fsPost))
        messages field fieldValue customErrorMessage st
      = rulesStep form (some (fsPre ++ ⟨some field.name, some (rs1 ++ rs2)⟩ :: fsPost))
          messages field fieldValue customErrorMessage st := by
  unfold rulesStep
  cases hst : st.1
  · simp
  · simp only [if_pos]
    rw [List.foldl_append, List.foldl_append]
    simp only [List.foldl_cons]
    congr 1
    simp only [beq_self_eq_true, Option.isSome_some, Bool.and_true, Bool.and_self, if_pos,
      Option.getD_some]
    exact applyRules_insert_inert form messages field fieldValue customErrorMessage
      _ rs1 rs2 _ (fun s => applyRule_equalTo_unresolvable form messages field fieldValue
        customErrorMessage sel mn mx em s h)

theorem rangelength_eq_min_and_max (form : Form) (v : String) (field : Field) (a b : Int) :
    rangelength form v field [a, b] = (minlength form v field a && maxlength form v field b) := by
  unfold rangelength minlength maxlength
  cases getLength form v field <;> simp

theorem lengthChecks_fst (form : Form) (messages : FormMessages) (field : Field)
    (v c : String) (st : Bool × String) (hst : st.1 = true) :
    (lengthChecks form messages field v c st).1 = lengthOk form v field := by
  rcases hmin : effMinAttr field with _ | m <;> rcases hmax : effMaxAttr field with _ | M
  · simp [lengthChecks, minlengthStep, maxlengthStep, rangelengthStep, lengthOk, hmin, hmax, hst]
  · cases hMd : validDigits M <;>
      simp [lengthChecks, minlengthStep, maxlengthStep, rangelengthStep, lengthOk, hmin, hmax,
        hMd, hst]
  · cases hmd : validDigits m <;>
      simp [lengthChecks, minlengthStep, maxlengthStep, rangelengthStep, lengthOk, hmin, hmax,
        hmd, hst]
  · cases hmd : validDigits m <;> cases hMd : validDigits M <;>
      simp [lengthChecks, minlengthStep, maxlengthStep, rangelengthStep, lengthOk, hmin, hmax,
        hmd, hMd, hst, rangelength_eq_min_and_max]

theorem typeSwitchStep_fst (env : Env) (form : Form) (messages : FormMessages) (field : Field)
    (v c : String) (st : Bool × String) (hst : st.1 = true) :
    (typeSwitchStep env form messages field v c st).1 = typeOk env form v field := by
  unfold typeSwitchStep typeOk
  split_ifs <;> first | rfl | exact lengthChecks_fst form messages field v c st hst

theorem patternStep_fst (env : Env) (messages : FormMessages) (field : Field)
    (v c : String) (st : Bool × String) (hv : v ≠ "") :
    (patternStep env messages field v c st).1
      = (st.1 && (field.pattern == "" || validRegExp env field.pattern v)) := by
  unfold patternStep
  cases hst : st.1
  · simp [hst]
  · by_cases hp : field.pattern = "" <;> simp [hst, hp, hv]

theorem applyRule_fst (form : Form) (messages : FormMessages) (field : Field)
    (v c : String) (r : FormRuleValidation) (st : Bool × String) (hst : st.1 = true) :
    (applyRule form messages field v c r st).1 = rulePass form field v r := by
  unfold applyRule rulePass
  rcases r with ⟨method, rfield, rmin, rmax, rerr⟩
  rcases method with _ | m
  · simpa using hst
  · rcases m with mname | p
    · by_cases he : mname = "equalTo"
      · rcases rfield with _ | sel
        · simp [he, hst]
        · by_cases hs : sel = ""
          · simp [he, hs, hst]
          · rcases hq : form.query sel with _ | eqf <;> simp [he, hs, hq, hst]
      · by_cases hml : mname = "minlength"
        · rcases rmin with _ | mn
          · simp [he, hml, hst]
          · by_cases hmn : mn = 0 <;> simp [he, hml, hmn, hst]
        · by_cases hmxl : mname = "maxlength"
          · rcases rmax with _ | mx
            · simp [he, hml, hmxl, hst]
            · by_cases hmx : mx = 0 <;> simp [he, hml, hmxl, hmx, hst]
          · by_cases hrl : mname = "rangelength"
            · rcases rmin with _ | mn <;> rcases rmax with _ | mx
              · simp [he, hml, hmxl, hrl, hst]
              · simp [he, hml, hmxl, hrl, hst]
              · simp [he, hml, hmxl, hrl, hst]
              · by_cases hmn : mn = 0 <;> by_cases hmx : mx = 0 <;>
                  simp [he, hml, hmxl, hrl, hmn, hmx, hst]
            · simp [he, hml, hmxl, hrl, hst]
    · rfl

theorem applyRules_fst (form : Form) (messages : FormMessages) (field : Field) (v c : String) :
    ∀ (rules : List FormRuleValidation) (st : Bool × String),
      (applyRules form messages field v c rules st).1
        = (st.1 && rules.all (rulePass form field v)) := by
  intro rules
  induction rules with
  | nil => intro st; simp [applyRules]
  | cons r rest ih =>
    intro st
    unfold applyRules at ih ⊢
    rw [List.foldl_cons, List.all_cons]
    cases hst : st.1
    · rw [if_neg (by simp [hst]), ih, hst]
      simp
    · rw [if_pos (by simp [hst]), ih, applyRule_fst form messages field v c r st hst]
      simp [hst]

theorem rulesFold_fst (form : Form) (messages : FormMessages) (field : Field) (v c : String) :
    ∀ (fsList : List FormField) (st : Bool × String),
      (fsList.foldl
        (fun s fs =>
          if fs.name == some field.name && fs.rules.isSome then
            applyRules form messages field v c (fs.rules.getD []) s
          else s)
        st).1
      = (st.1 && fsList.all (fun fs =>
          if fs.name == some field.name && fs.rules.isSome then
            (fs.rules.getD []).all (rulePass form field v)
          else true)) := by
  intro fsList
  induction fsList with
  | nil => intro st; simp
  | cons fs rest ih =>
    intro st
    rw [List.foldl_cons, List.all_cons]
    by_cases hc2 : (fs.name == some field.name && fs.rules.isSome) = true
    · rw [if_pos hc2, if_pos hc2, ih, applyRules_fst]
      simp [Bool.and_assoc]
    · rw [if_neg hc2, if_neg hc2, ih]
      simp

theorem rulesStep_fst (form : Form) (sf : Option (List FormField)) (messages : FormMessages)
    (field : Field) (v c : String) (st : Bool × String) :
    (rulesStep form sf messages field v c st).1 = (st.1 && rulesOk form sf field v) := by
  unfold rulesStep rulesOk
  cases hst : st.1
  · cases sf <;> simp [hst]
  · cases sf with
    | none => simp [hst]
    | some fsList =>
      simp only [if_pos]
      rw [rulesFold_fst form messages field v c fsList st, hst]

theorem jsLookup_mem {ps : List (String × JSVal)} (hnd : (ps.map Prod.fst).Nodup)
    {k : String} {v : JSVal} (hm : (k, v) ∈ ps) : jsLookup ps k = some v := by
  induction ps with
  | nil => simp at hm
  | cons p rest ih =>
    obtain ⟨k2, v2⟩ := p
    simp only [List.map_cons, List.nodup_cons] at hnd
    rcases List.mem_cons.mp hm with heq | hmem
    · obtain ⟨rfl, rfl⟩ := Prod.mk.injEq .. ▸ heq
      simp [jsLookup]
    · have hk : ¬(k2 = k) := by
        intro h
        subst h
        exact hnd.1 (List.mem_map_of_mem Prod.fst hmem)
      simp only [jsLookup, if_neg hk]
      exact ih hnd.2 hmem

theorem mem_of_jsLookup {ps : List (String × JSVal)} {k : String} {v : JSVal}
    (h : jsLookup ps k = some v) : (k, v) ∈ ps := by
  induction ps with
  | nil => simp [jsLookup] at h
  | cons p rest ih =>
    obtain ⟨k2, v2⟩ := p
    by_cases hk : k2 = k
    · subst hk
      simp [jsLookup] at h
      subst h
      exact List.mem_cons_self _ _
    · simp only [jsLookup, if_neg hk] at h
      exact List.mem_cons_of_mem _ (ih h)

theorem wfProps_mem {ps : List (String × JSVal)} (hw : wfProps ps = true)
    {k : String} {v : JSVal} (hm : (k, v) ∈ ps) : wfJS v = true := by
  induction ps with
  | nil => simp at hm
  | cons p rest ih =>
    obtain ⟨k2, v2⟩ := p
    unfold wfProps at hw
    rw [Bool.and_eq_true] at hw
    rcases List.mem_cons.mp hm with heq | hmem
    · obtain ⟨rfl, rfl⟩ := Prod.mk.injEq .. ▸ heq
      exact hw.1
    · exact ih hw.2 hmem

theorem dedupAux_all_seen : ∀ (l seen : List String),
    (∀ x ∈ l, seen.contains x = true) → dedupAux seen l = [] := by
  intro l
  induction l with
  | nil => intro seen _; rfl
  | cons k rest ih =>
    intro seen h
    unfold dedupAux
    rw [if_pos (h k (List.mem_cons_self _ _))]
    exact ih seen (fun x hx => h x (List.mem_cons_of_mem _ hx))

theorem dedupAux_append_absorb : ∀ (l1 seen l2 : List String),
    (∀ x ∈ l2, x ∈ l1 ∨ seen.contains x = true) →
    dedupAux seen (l1 ++ l2) = dedupAux seen l1 := by
  intro l1
  induction l1 with
  | nil =>
    intro seen l2 h
    simp only [List.nil_append]
    have hall : ∀ x ∈ l2, seen.contains x = true := by
      intro x hx
      rcases h x hx with hx1 | hx2
      · simp at hx1
      · exact hx2
    rw [dedupAux_all_seen l2 seen hall]
    rfl
  | cons k rest ih =>
    intro seen l2 h
    simp only [List.cons_append]
    unfold dedupAux
    by_cases hk : seen.contains k = true
    · rw [if_pos hk, if_pos hk]
      exact ih seen l2 (fun x hx => by
        rcases h x hx with hx1 | hx2
        · rcases List.mem_cons.mp hx1 with rfl | hm
          · right; exact hk
          · left; exact hm
        · right; exact hx2)
    · rw [if_neg hk, if_neg hk]
      congr 1
      exact ih (k :: seen) l2 (fun x hx => by
        rcases h x hx with hx1 | hx2
        · rcases List.mem_cons.mp hx1 with rfl | hm
          · right; simp
          · left; exact hm
        · right
          simp only [List.contains_cons, Bool.or_eq_true]
          exact Or.inr hx2)

theorem dedupKeys_append_self (l : List String) : dedupKeys (l ++ l) = dedupKeys l :=
  dedupAux_append_absorb l [] l (fun _ hx => Or.inl hx)

theorem dedupAux_of_nodup : ∀ (l seen : List String), l.Nodup →
    (∀ x ∈ l, seen.contains x = false) → dedupAux seen l = l := by
  intro l
  induction l with
  | nil => intro seen _ _; rfl
  | cons k rest ih =>
    intro seen hnd h
    unfold dedupAux
    rw [if_neg (by simpa using h k (List.mem_cons_self _ _))]
    congr 1
    exact ih (k :: seen) (List.nodup_cons.mp hnd).2 (fun x hx => by
      have hxk : ¬(x = k) := fun he => (List.nodup_cons.mp hnd).1 (he ▸ hx)
      have hxs := h x (List.mem_cons_of_mem _ hx)
      simp only [List.contains_cons, Bool.or_eq_false_iff]
      exact ⟨by simp [hxk], hxs⟩)

theorem dedupKeys_of_nodup (l : List String) (h : l.Nodup) : dedupKeys l = l :=
  dedupAux_of_nodup l [] h (fun _ _ => rfl)

theorem map_lookup_self : ∀ (ps : List (String × JSVal)), (ps.map Prod.fst).Nodup →
    (ps.map Prod.fst).map (fun k =>
      match jsLookup ps k with
      | some v => (k, v)
      | none => (k, clone ((jsLookup ps k).getD .vundefined))) = ps := by
  intro ps
  induction ps with
  | nil => intro _; rfl
  | cons p rest ih =>
    intro hnd
    obtain ⟨k0, v0⟩ := p
    simp only [List.map_cons] at hnd ⊢
    have hnd' := List.nodup_cons.mp hnd
    congr 1
    · simp [jsLookup]
    · have h1 : ∀ k ∈ rest.map Prod.fst,
          (match jsLookup ((k0, v0) :: rest) k with
           | some v => (k, v)
           | none => (k, clone ((jsLookup ((k0, v0) :: rest) k).getD .vundefined)))
          = (match jsLookup rest k with
             | some v => (k, v)
             | none => (k, clone ((jsLookup rest k).getD .vundefined))) := by
        intro k hk
        have hkk : ¬(k0 = k) := fun he => hnd'.1 (he ▸ hk)
        simp only [jsLookup, if_neg hkk]
      rw [List.map_congr_left h1]
      exact ih hnd'.2

mutual
theorem merge_self : ∀ (v : JSVal), wfJS v = true → merge v v = v
  | .vundefined, _ => rfl
  | .vnull, _ => rfl
  | .vbool _, _ => rfl
  | .vnum _, _ => rfl
  | .vstr _, _ => rfl
  | .vfun _, _ => rfl
  | .vobj arr ps, h => by
    have h' := h
    unfold wfJS at h'
    rw [Bool.and_eq_true] at h'
    have hnd : (ps.map Prod.fst).Nodup := of_decide_eq_true h'.1
    have hw : wfProps ps = true := h'.2
    show merge (.vobj arr ps) (.vobj arr ps) = .vobj arr ps
    simp only [merge]
    rw [show dedupKeys (ps.map Prod.fst ++ ps.map Prod.fst) = ps.map Prod.fst from
      (dedupKeys_append_self _).trans (dedupKeys_of_nodup _ hnd)]
    rw [mergeProps_self ps ps hw (fun k v hm => jsLookup_mem hnd hm)]
    exact congrArg (JSVal.vobj arr) (map_lookup_self ps hnd)

theorem mergeProps_self : ∀ (ps bs : List (String × JSVal)), wfProps ps = true →
    (∀ k v, (k, v) ∈ bs → jsLookup ps k = some v) → mergeProps ps bs = bs
  | _, [], _, _ => rfl
  | ps, (k, vB) :: rest, hw, hlook => by
    have hl : jsLookup ps k = some vB := hlook k vB (List.mem_cons_self _ _)
    have hwB : wfJS vB = true := wfProps_mem hw (mem_of_jsLookup hl)
    have htail : mergeProps ps rest = rest :=
      mergeProps_self ps rest hw (fun k2 v2 hm => hlook k2 v2 (List.mem_cons_of_mem _ hm))
    unfold mergeProps
    rw [htail, hl]
    cases vB <;> first | rfl | rw [Option.getD_some, merge_self _ hwB]
end

end FormValidator

namespace FormValidator

/-! ## Claim C2 -/

/-- C2: the claim asserts that constructing the validator with the settings
argument omitted succeeds and installs the defaults.  In fact `deepMerge`
returns its second argument unchanged whenever that argument is not an object
— and `undefined` is not — so `this.settings` becomes `undefined` and the very
next line, `this.settings.messages`, throws a `TypeError`.  This theorem
evaluates the embedded constructor computation at the omitted-settings input
and shows it aborts with that `TypeError` instead of initializing. -/
theorem C2_constructor_without_settings_throws :
    constructorCompute JSVal.vundefined
      = Except.error "TypeError: cannot read properties of undefined" := rfl

/-! ## Claim C3 -/

/-- C3: the claim asserts that message overrides take precedence for keys
present in both catalogs.  The first constructor merge does honour the user
override (first conjunct), but the second merge,
`deepMerge(this.settings.messages, this.messages)`, passes the default catalog
as the *override* side, so every canonical key is reset to its default and the
user's message is discarded (second conjunct).  `loadMessages` has the same
inversion: `deepMerge(data.messages, this.messages)` lets the current catalog
win over the fetched one (third conjunct). -/
theorem C3_default_messages_override_user_and_fetched :
    effectiveSettingsMessage userSettingsC3 "required" = some (.vstr "CUSTOM REQUIRED")
      ∧ effectiveCatalogMessage userSettingsC3 "required"
          = some (.vstr "This field is required.")
      ∧ getProp
          (loadMessagesMerge (.vobj false [("required", .vstr "FETCHED REQUIRED")])
            defaultMessagesJS) "required"
          = Except.ok (JSVal.vstr "This field is required.") :=
  ⟨rfl, rfl, rfl⟩

/-! ## Claim C4 -/

/-- C4: the claim asserts `validDate` accepts every in-bounds parseable value.
`"1970-01-01T00:00:00Z"` parses (to the timestamp `0`, which `Date.parse`
really returns for it) and the field declares no bounds, yet the source tests
the parse result with `if (value)`, which is false for the number `0`, so the
field is reported invalid. -/
theorem C4_epoch_date_rejected :
    env4.dateParse fieldC4.value = some 0
      ∧ fieldC4.getAttribute "min" = none
      ∧ fieldC4.getAttribute "max" = none
      ∧ validDate env4 fieldC4 = false :=
  ⟨rfl, rfl, rfl, rfl⟩

/-! ## Claim C5 -/

/-- C5, counterexample: the claim asserts no accepted value has a dotless
domain, but the dot-label group of the email regex is starred, so `"a@b"` —
which contains no dot at all — is accepted. -/
theorem C5_dotless_domain_accepted_cex :
    validEmail "a@b" = true ∧ "a@b".toList.contains '.' = false :=
  ⟨rfl, rfl⟩

/-- C5, amended: `validEmail` accepts `"a@b.com"` and rejects
`"not-an-email"`, as claimed; but the domain is only required to be a sequence
of one or more dot-separated labels, so a dotless single-label domain is also
accepted, while an empty local part, an empty domain, an empty label between
dots, and a label with a leading hyphen are all rejected. -/
theorem C5_email_shape :
    validEmail "a@b.com" = true
      ∧ validEmail "not-an-email" = false
      ∧ validEmail "a@b" = true
      ∧ validEmail "a@" = false
      ∧ validEmail "@b.com" = false
      ∧ validEmail "a@b..com" = false
      ∧ validEmail "a@-b.com" = false :=
  ⟨rfl, rfl, rfl, rfl, rfl, rfl, rfl⟩

/-! ## Claim C1, counterexample -/

/-- C1, counterexample: on a text field with `minlength="5"`, `maxlength="10"`
and value `"ab"`, the minimum-length step fails and sets the `minlength`
message (first conjunct), yet the final verdict carries the `rangelength`
message (second conjunct): the combined range check overwrote the message that
the earlier failing step had set, contradicting the claim.  (The maximum-length
step in between had also flipped the running validity back to `true`; the
range check then reinstated the failure, so the returned verdict is still
invalid.) -/
theorem C1_range_overwrites_min_message_cex :
    minlengthStep form0 defaultMessages fieldC1 "ab" "" (true, "")
        = (false, "Please enter at least 5 characters.")
      ∧ validateField env0 form0 none defaultMessages fieldC1
          = (false, "Please enter a value between 5 and 10 characters long")
      ∧ "Please enter at least 5 characters."
          ≠ "Please enter a value between 5 and 10 characters long" :=
  ⟨rfl, rfl, by decide⟩

end FormValidator

namespace FormValidator

/-! ## Claim C1, amended theorem -/

/-- C1, amended: the returned verdict of `validateField` is exactly the
conjunction of the required check with — for a non-empty value — the
type-specific check, the pattern check and every applicable declared rule; in
particular, once any applicable check fails the returned verdict is invalid,
so no later pipeline step flips the result back to valid.  (The original
claim's further assertion, that no step overwrites a message set by an
earlier failing one, is refuted by `C1_range_overwrites_min_message_cex`: the
combined range check overwrites the minimum-length message.) -/
theorem C1_verdict_characterization (env : Env) (form : Form)
    (sf : Option (List FormField)) (messages : FormMessages) (field : Field) :
    (validateField env form sf messages field).1
      = (requiredOk form field &&
          (field.value == "" ||
            (typeOk env form field.value field
              && (field.pattern == "" || validRegExp env field.pattern field.value)
              && rulesOk form sf field field.value))) := by
  unfold validateField requiredOk
  cases hreq : field.hasAttribute "required" with
  | false =>
    by_cases hv : field.value = ""
    · simp [hreq, hv]
    · simp only [hreq, Bool.false_eq_true, if_false]
      rw [if_pos (by simp [hv])]
      rw [rulesStep_fst, patternStep_fst env messages field field.value field.dataErrorMessage _ hv,
        typeSwitchStep_fst env form messages field field.value field.dataErrorMessage _ rfl]
      simp [hv, Bool.and_assoc]
  | true =>
    simp only [hreq, if_pos]
    cases hok : (if field.type = "checkbox" || field.type = "radio" then
        validateCheckboxRadio form field.name
      else notEmpty field.value) with
    | false =>
      rw [if_neg (by simp [hok])]
      simp [hok]
    | true =>
      by_cases hv : field.value = ""
      · simp [hok, hv]
      · rw [if_pos (by simp [hok, hv])]
        rw [rulesStep_fst,
          patternStep_fst env messages field field.value field.dataErrorMessage _ hv,
          typeSwitchStep_fst env form messages field field.value field.dataErrorMessage _ rfl]
        simp [hok, hv, Bool.and_assoc]

/-! ## Claim C6 -/

/-- C6, amended: when the attribute-derived minimum-length check fails with no
custom message (and the maximum side is inapplicable), the resolved message is
the `min` catalog variant exactly when the field carries a truthy `min`
attribute — not when the effective minimum was sourced from it — and the
`minlength` variant otherwise, with the effective bound substituted for `{0}`;
symmetrically for the maximum check with `max`/`maxlength`.  The source
decides the variant by `field.getAttribute('min')`, so a field carrying both
`minlength` and `min` attributes gets the `min` variant even though the bound
came from `minlength` (see `C6_min_variant_despite_minlength_source_cex`). -/
theorem C6_length_message_source_variant (env : Env) (form : Form)
    (sf : Option (List FormField)) (messages : FormMessages) (field : Field)
    (ht : usesLengthChecks field.type = true)
    (hreq : field.hasAttribute "required" = false)
    (hv : field.value ≠ "")
    (hc : field.dataErrorMessage = "") :
    (∀ m, effMinAttr field = some m → validDigits m = true →
      minlength form field.value field ((jsParseInt m).getD 0) = false →
      maxSourceApplicable field = false →
      validateField env form sf messages field
        = (false,
            if truthyAttr (field.getAttribute "min") then replaceFirst messages.min "{0}" m
            else replaceFirst messages.minlength "{0}" m))
    ∧ (∀ m, effMaxAttr field = some m → validDigits m = true →
        maxlength form field.value field ((jsParseInt m).getD 0) = false →
        minSourceApplicable field = false →
        validateField env form sf messages field
          = (false,
              if truthyAttr (field.getAttribute "max") then replaceFirst messages.max "{0}" m
              else replaceFirst messages.maxlength "{0}" m)) := by
  have hts : field.type ≠ "email" ∧ field.type ≠ "tel" ∧ field.type ≠ "url"
      ∧ field.type ≠ "file" ∧ field.type ≠ "date" := by
    unfold usesLengthChecks at ht
    simp only [Bool.not_eq_eq_eq_not, Bool.not_true, Bool.or_eq_false_iff,
      beq_eq_false_iff_ne] at ht
    tauto
  obtain ⟨h1, h2, h3, h4, h5⟩ := hts
  have hshape : validateField env form sf messages field
      = rulesStep form sf messages field field.value ""
          (patternStep env messages field field.value ""
            (lengthChecks form messages field field.value "" (true, ""))) := by
    simp [validateField, hreq, hv, hc, typeSwitchStep, h1, h2, h3, h4, h5]
  constructor
  · intro m hmin hdig hfail hmaxNA
    have hmaxStep : ∀ st, maxlengthStep form messages field field.value "" st = st := by
      intro st
      unfold maxlengthStep
      cases hM : effMaxAttr field with
      | none => rfl
      | some M =>
        have hMd : validDigits M = false := by
          unfold maxSourceApplicable at hmaxNA
          rw [hM] at hmaxNA
          exact hmaxNA
        simp [hMd]
    have hrangeStep : ∀ st,
        rangelengthStep form messages field field.value "" st = st := by
      intro st
      unfold rangelengthStep
      cases hM : effMaxAttr field with
      | none => simp [hmin, hM]
      | some M =>
        have hMd : validDigits M = false := by
          unfold maxSourceApplicable at hmaxNA
          rw [hM] at hmaxNA
          exact hmaxNA
        simp [hmin, hM, hMd]
    have hlc : lengthChecks form messages field field.value "" (true, "")
        = (false,
            if truthyAttr (field.getAttribute "min") then replaceFirst messages.min "{0}" m
            else replaceFirst messages.minlength "{0}" m) := by
      unfold lengthChecks
      rw [hmaxStep, hrangeStep]
      unfold minlengthStep
      simp [hmin, hdig, hfail]
    rw [hshape, hlc, patternStep_invalid env messages field field.value "" _ rfl,
      rulesStep_invalid form sf messages field field.value "" _ rfl]
  · intro m hmax hdig hfail hminNA
    have hminStep : ∀ st, minlengthStep form messages field field.value "" st = st := by
      intro st
      unfold minlengthStep
      cases hM : effMinAttr field with
      | none => rfl
      | some M =>
        have hMd : validDigits M = false := by
          unfold minSourceApplicable at hminNA
          rw [hM] at hminNA
          exact hminNA
        simp [hMd]
    have hrangeStep : ∀ st,
        rangelengthStep form messages field field.value "" st = st := by
      intro st
      unfold rangelengthStep
      cases hM : effMinAttr field with
      | none => simp [hM]
      | some M =>
        have hMd : validDigits M = false := by
          unfold minSourceApplicable at hminNA
          rw [hM] at hminNA
          exact hminNA
        simp [hM, hmax, hMd]
    have hlc : lengthChecks form messages field field.value "" (true, "")
        = (false,
            if truthyAttr (field.getAttribute "max") then replaceFirst messages.max "{0}" m
            else replaceFirst messages.maxlength "{0}" m) := by
      unfold lengthChecks
      rw [hminStep, hrangeStep]
      unfold maxlengthStep
      simp [hmax, hdig, hfail]
    rw [hshape, hlc, patternStep_invalid env messages field field.value "" _ rfl,
      rulesStep_invalid form sf messages field field.value "" _ rfl]

/-- C6, witness: a field with only `minlength="5"` and value `"ab"` resolves
the `minlength` catalog variant. -/
theorem C6_witness :
    usesLengthChecks fieldW.type = true
      ∧ effMinAttr fieldW = some "5"
      ∧ validateField env0 form0 none defaultMessages fieldW
          = (false,
              if truthyAttr (fieldW.getAttribute "min") then
                replaceFirst defaultMessages.min "{0}" "5"
              else replaceFirst defaultMessages.minlength "{0}" "5") :=
  ⟨rfl, rfl,
    (C6_length_message_source_variant env0 form0 none defaultMessages fieldW rfl rfl
      (by decide) rfl).1 "5" rfl rfl rfl rfl⟩

/-- C6, counterexample: on a field carrying both `minlength="5"` and
`min="3"`, the effective minimum is sourced from the `minlength` attribute,
yet the resolved message is the `min` catalog variant (and not the
`minlength` variant the claim requires), because the source only tests
whether a `min` attribute is present. -/
theorem C6_min_variant_despite_minlength_source_cex :
    fieldC6.getAttribute "minlength" = some "5"
      ∧ effMinAttr fieldC6 = fieldC6.getAttribute "minlength"
      ∧ validateField env0 form0 none defaultMessages fieldC6
          = (false, "Please enter a value at least 5.")
      ∧ "Please enter a value at least 5." ≠ replaceFirst defaultMessages.minlength "{0}" "5" :=
  ⟨rfl, rfl, rfl, by decide⟩

/-! ## Claim C7 -/

/-- C7: `validateForm` equals the conjunction of `validateField` over the
whole tracked-field list — the fold never skips a field after a failure — and
returns `true` exactly when every tracked field evaluates valid. -/
theorem C7_validateForm_no_short_circuit (env : Env) (form : Form) (fs : List Field)
    (settingsFields : Option (List FormField)) (messages : FormMessages) :
    validateForm env form (some fs) settingsFields messages
        = fs.all (fun f => (validateField env form settingsFields messages f).1)
      ∧ (validateForm env form (some fs) settingsFields messages = true ↔
          ∀ f ∈ fs, (validateField env form settingsFields messages f).1 = true) := by
  have key : ∀ (l : List Field) (b : Bool),
      l.foldl
        (fun isValid field =>
          let isValidField := (validateField env form settingsFields messages field).1
          if !isValidField then false else isValid)
        b
      = (b && l.all (fun f => (validateField env form settingsFields messages f).1)) := by
    intro l
    induction l with
    | nil => intro b; simp
    | cons f r ih =>
      intro b
      simp only [List.foldl_cons, List.all_cons]
      rw [ih]
      cases hv : (validateField env form settingsFields messages f).1 <;>
        cases b <;> simp [hv]
  have h1 : validateForm env form (some fs) settingsFields messages
      = fs.all (fun f => (validateField env form settingsFields messages f).1) :=
    (key fs true).trans (Bool.true_and _)
  exact ⟨h1, by rw [h1]; simp [List.all_eq_true]⟩

/-! ## Claim C8 -/

/-- C8: an `equalTo` declared rule whose target selector matches nothing in
the bound form leaves the whole `validateField` verdict — validity and
message — exactly as if the rule were absent, wherever the rule sits among
the field's declared rules; and since the embedding is a total function, no
exception is involved. -/
theorem C8_unresolvable_equalTo_inert (env : Env) (form : Form)
    (messages : FormMessages) (field : Field) (fsPre fsPost : List FormField)
    (rs1 rs2 : List FormRuleValidation) (sel : String) (mn mx : Option Int)
    (em : Option String) (h : form.query sel = none) :
    validateField env form
        (some (fsPre
          ++ ⟨some field.name,
              some (rs1 ++ ⟨some (RuleMethod.methodName "equalTo"), some sel, mn, mx, em⟩ :: rs2)⟩
            :: fsPost))
        messages field
      = validateField env form (some (fsPre ++ ⟨some field.name, some (rs1 ++ rs2)⟩ :: fsPost))
          messages field := by
  simp only [validateField]
  exact if_congr Iff.rfl
    (rulesStep_equalTo_unresolvable form messages field field.value field.dataErrorMessage
      sel mn mx em fsPre fsPost rs1 rs2 _ h) rfl


/-! ## Claim C9 -/

/-- C9: `deepMerge` is idempotent on every configuration object (tree-shaped,
with the distinct property keys every JavaScript object has), and merging
`{a: null}` over `{a: 1, b: 2}` yields `{a: null, b: 2}`: the `null` override
replaces the base value while untouched keys retain theirs. -/
theorem C9_deepMerge_idempotent_null_override :
    (∀ config : JSVal, wfJS config = true → deepMerge config config = config)
      ∧ deepMerge (.vobj false [("a", .vnum 1), ("b", .vnum 2)]) (.vobj false [("a", .vnull)])
          = .vobj false [("a", .vnull), ("b", .vnum 2)] :=
  ⟨fun config h => merge_self config h, rfl⟩

/-- C9, witness: idempotence evaluated on a concrete nested configuration. -/
theorem C9_witness : wfJS configW = true ∧ deepMerge configW configW = configW :=
  ⟨by decide, C9_deepMerge_idempotent_null_override.1 configW (by decide)⟩

/-! ## Claim C10 -/

/-- C10: a field that is not marked required and whose value is empty is
reported valid with the message left at the field's custom text (empty when
none), for every environment, form, message catalog and declared-rule
configuration — so no type, length, pattern or declared-rule check (custom
predicates included) can influence the outcome. -/
theorem C10_non_required_empty_value_valid (env : Env) (form : Form)
    (settingsFields : Option (List FormField)) (messages : FormMessages) (field : Field)
    (hreq : field.hasAttribute "required" = false) (hval : field.value = "") :
    validateField env form settingsFields messages field = (true, field.dataErrorMessage) := by
  unfold validateField
  rw [hreq]
  simp [hval]
  by_cases h : field.dataErrorMessage = "" <;> simp [h]

/-- C10, witness: even with an always-failing custom rule declared for the
field, an optional empty field validates. -/
theorem C10_witness :
    fieldC10.hasAttribute "required" = false
      ∧ fieldC10.value = ""
      ∧ validateField env0 form0
          (some [⟨some fieldC10.name,
            some [⟨some (RuleMethod.fn (fun _ _ => false)), none, none, none, none⟩]⟩])
          defaultMessages fieldC10
        = (true, fieldC10.dataErrorMessage) :=
  ⟨rfl, rfl,
    C10_non_required_empty_value_valid env0 form0
      (some [⟨some fieldC10.name,
        some [⟨some (RuleMethod.fn (fun _ _ => false)), none, none, none, none⟩]⟩])
      defaultMessages fieldC10 rfl rfl⟩

/-- C8, witness: a concrete `equalTo` rule with selector `"#other"`, which
the form resolves to nothing, leaves the verdict unchanged. -/
theorem C8_witness :
    form0.query "#other" = none
      ∧ validateField env0 form0
          (some [⟨some fieldC8.name,
            some [⟨some (RuleMethod.methodName "equalTo"), some "#other", none, none, none⟩]⟩])
          defaultMessages fieldC8
        = validateField env0 form0 (some [⟨some fieldC8.name, some []⟩]) defaultMessages fieldC8 :=
  ⟨rfl, C8_unresolvable_equalTo_inert env0 form0 defaultMessages fieldC8 [] [] [] []
    "#other" none none none rfl⟩

end FormValidator
